import Mathlib

/-!
Verification of the matrix-addition core (`qutip/core/data/add.pyx`):
a shallow embedding of the CSR merge kernels and the layout-aware dense
addition kernels, together with theorems settling the specification's
claims about them.

Machine doubles are modelled by exact rationals; a complex scalar is a
pair of rationals.  C `int` truncation is modelled explicitly where the
source performs it (`c_int_of_nat`).  Collaborators that live outside
the provided source (the sparse accumulator from `csr.pyx`, the BLAS
`zaxpy` routine, the global settings object, allocation/copy helpers)
are modelled from the specification's contracts; each such definition
carries a doc comment starting with "Modelled from the spec".
-/

namespace QutipAdd

/-- A complex scalar (`double complex` in the source), modelled as an exact
pair of rationals. -/
structure Cplx where
  re : ℚ
  im : ℚ
deriving DecidableEq

instance : Zero Cplx := ⟨⟨0, 0⟩⟩

instance : One Cplx := ⟨⟨1, 0⟩⟩

instance : Add Cplx := ⟨fun x y => ⟨x.re + y.re, x.im + y.im⟩⟩

instance : Mul Cplx := ⟨fun x y => ⟨x.re * y.re - x.im * y.im, x.re * y.im + x.im * y.re⟩⟩

instance : Neg Cplx := ⟨fun x => ⟨-x.re, -x.im⟩⟩

/-- Squared magnitude of a complex scalar. -/
def magSq (v : Cplx) : ℚ := v.re * v.re + v.im * v.im

/-- The comparison `|v| <= tol` of a complex magnitude against a real
tolerance, expressed without square roots: since `|v| >= 0`, it holds iff
`0 <= tol` and `|v|^2 <= tol^2`. -/
def absLeB (v : Cplx) (tol : ℚ) : Bool :=
  decide (0 ≤ tol) && decide (magSq v ≤ tol * tol)

/-- Modelled from the spec: the global numeric-tidy-up configuration,
an enabled flag plus an absolute threshold (`settings.core['auto_tidyup']`
and `settings.core['auto_tidyup_atol']`), read once per CSR addition call. -/
structure CoreSettings where
  auto_tidyup : Bool
  auto_tidyup_atol : ℚ
deriving DecidableEq

/-- The tolerance actually used by the CSR merge kernels.  The source
declares `cdef double tol` WITHOUT an initializer and assigns it only when
`auto_tidyup` is enabled; when tidy-up is disabled the kernel therefore
compares against whatever stale value occupies the stack slot.  That
unspecified stale value is made explicit here as the `tolInit` parameter. -/
def readTol (st : CoreSettings) (tolInit : ℚ) : ℚ :=
  if st.auto_tidyup then st.auto_tidyup_atol else tolInit

/-- A CSR matrix: `shape = (rows, cols)`, per-row offsets `row_index`
(length `rows + 1`), per-entry column indices `col_index` and values `data`.
Capacity slack beyond `row_index[rows]` is not observable, so the embedding
keeps exactly the stored entries. -/
structure CSR where
  shape : Nat × Nat
  row_index : List Nat
  col_index : List Nat
  data : List Cplx
deriving DecidableEq

/-- `csr.nnz`: the stored-entry count, `row_index[rows]`. -/
def csr_nnz (m : CSR) : Nat := m.row_index.getD m.shape.1 0

/-- Modelled from the spec: `CSR.copy()` returns an independent deep copy;
in value semantics a deep copy is the matrix itself. -/
def CSR.copy (m : CSR) : CSR := m

/-- The column indices of row `r`'s stored segment, positions
`[row_index[r], row_index[r+1])` of `col_index`. -/
def rowCols (m : CSR) (r : Nat) : List Nat :=
  (List.range' (m.row_index.getD r 0)
      (m.row_index.getD (r + 1) 0 - m.row_index.getD r 0)).map
    (fun p => m.col_index.getD p 0)

/-- Structural validity of a CSR matrix: `row_index` has length `rows + 1`,
starts at 0, is monotonically non-decreasing, ends at the stored entry
count, and each row's `col_index` segment is strictly increasing and within
`[0, cols)`. -/
def csr_wf (m : CSR) : Prop :=
  m.row_index.length = m.shape.1 + 1 ∧
  m.row_index.getD 0 0 = 0 ∧
  (∀ r, r < m.shape.1 → m.row_index.getD r 0 ≤ m.row_index.getD (r + 1) 0) ∧
  m.row_index.getD m.shape.1 0 = m.data.length ∧
  m.col_index.length = m.data.length ∧
  (∀ r, r < m.shape.1 →
    (rowCols m r).Pairwise (· < ·) ∧ ∀ c ∈ rowCols m r, c < m.shape.2)

instance (m : CSR) : Decidable (csr_wf m) := by
  unfold csr_wf
  refine @instDecidableAnd _ _ ?_ (@instDecidableAnd _ _ ?_ (@instDecidableAnd _ _ ?_
    (@instDecidableAnd _ _ ?_ (@instDecidableAnd _ _ ?_ ?_)))) <;> infer_instance

/-- The value stored by a CSR matrix at position `(i, j)`: scan row `i`'s
segment for column `j`, defaulting to zero. -/
def CSR.get (m : CSR) (i j : Nat) : Cplx :=
  let lo := m.row_index.getD i 0
  let hi := m.row_index.getD (i + 1) 0
  (List.range' lo (hi - lo)).foldr
    (fun p acc => if m.col_index.getD p 0 = j then m.data.getD p 0 else acc) 0

/-- Modelled from the spec: the sparse accumulator of `csr.pyx` (not part of
the provided source).  It owns a dense value buffer of length `ncols` plus
the list of columns touched since the last reset, in touch order. -/
structure Accumulator where
  ncols : Nat
  values : List Cplx
  touched : List Nat
deriving DecidableEq

/-- Modelled from the spec: `acc_alloc(ncols)` returns a fresh accumulator
sized for `ncols` columns, all values zero and no column touched. -/
def acc_alloc (ncols : Nat) : Accumulator :=
  ⟨ncols, List.replicate ncols 0, []⟩

/-- Modelled from the spec: `acc_scatter` adds `v` to the running total at
`col`, marking `col` touched (once) in arrival order.  Repeated scatters to
the same column accumulate. -/
def acc_scatter (acc : Accumulator) (v : Cplx) (col : Nat) : Accumulator :=
  { acc with
    values := acc.values.set col (acc.values.getD col 0 + v)
    touched := if acc.touched.contains col then acc.touched else acc.touched ++ [col] }

/-- Modelled from the spec: `acc_gather` emits the touched columns in
ascending column order, compacted, omitting a column whose accumulated
value has magnitude at or below `tol`; it returns the surviving
column/value pairs (the count written is their number). -/
def acc_gather (acc : Accumulator) (tol : ℚ) : List (Nat × Cplx) :=
  ((List.range acc.ncols).filter
      (fun c => acc.touched.contains c && !(absLeB (acc.values.getD c 0) tol))).map
    (fun c => (c, acc.values.getD c 0))

/-- Modelled from the spec: `acc_reset` clears all touch marks and values,
restoring the freshly-allocated state. -/
def acc_reset (acc : Accumulator) : Accumulator := acc_alloc acc.ncols

/-- One row of the CSR merge: walk the two sorted rows with two pointers
(`pa` in `[pa, pam)` for `a`, `pb` in `[pb, pbm)` for `b`), scattering the
entry with the smaller column (a side that is exhausted presents the
sentinel column `ncols + 1`); values taken from `b` pass through `f`
(identity for `_add_csr`, multiplication by `scale` for `_add_csr_scale`).
The loop consumes one entry per step, so its step count is bounded by the
`fuel` argument, which callers set to the total number of pending entries. -/
def mergeLoop (ncols : Nat) (a b : CSR) (f : Cplx → Cplx) :
    Nat → Nat → Nat → Nat → Nat → Accumulator → Accumulator
  | 0, _, _, _, _, acc => acc
  | fuel + 1, pa, pam, pb, pbm, acc =>
    if pa < pam ∨ pb < pbm then
      let col_a := if pa < pam then a.col_index.getD pa 0 else ncols + 1
      let col_b := if pb < pbm then b.col_index.getD pb 0 else ncols + 1
      if col_a < col_b then
        mergeLoop ncols a b f fuel (pa + 1) pam pb pbm
          (acc_scatter acc (a.data.getD pa 0) col_a)
      else
        mergeLoop ncols a b f fuel pa pam (pb + 1) pbm
          (acc_scatter acc (f (b.data.getD pb 0)) col_b)
    else acc

/-- The merged entries of row `row` of `a + f(b)`: run the two-pointer walk
over the row's segments into a fresh accumulator (`acc_reset` restores the
freshly-allocated state, so each row starts from `acc_alloc`), then gather
with the tolerance. -/
def rowResult (a b : CSR) (f : Cplx → Cplx) (tol : ℚ) (row : Nat) : List (Nat × Cplx) :=
  let pa := a.row_index.getD row 0
  let pam := a.row_index.getD (row + 1) 0
  let pb := b.row_index.getD row 0
  let pbm := b.row_index.getD (row + 1) 0
  acc_gather
    (mergeLoop a.shape.2 a b f ((pam - pa) + (pbm - pb)) pa pam pb pbm
      (acc_alloc a.shape.2))
    tol

/-- The shared body of `_add_csr` and `_add_csr_scale`: build the output
CSR row by row.  `row_index[r]` is the running stored-entry total after the
first `r` rows (`row_index[0] = 0`); `col_index`/`data` are the gathered
rows, compacted in order. -/
def mergeCSR (a b : CSR) (f : Cplx → Cplx) (tol : ℚ) : CSR :=
  let rows := a.shape.1
  let L := (List.range rows).map (rowResult a b f tol)
  { shape := a.shape
    row_index := (List.range (rows + 1)).map (fun r => ((L.take r).flatten).length)
    col_index := L.flatten.map Prod.fst
    data := L.flatten.map Prod.snd }

/-- `_add_csr`: `c := a + b` for same-shape CSR operands.  The tolerance is
read once per call from the global tidy-up setting; `tolInit` is the stale
stack value of the uninitialized `tol` variable (see `readTol`). -/
def _add_csr (a b : CSR) (st : CoreSettings) (tolInit : ℚ) : CSR :=
  mergeCSR a b (fun v => v) (readTol st tolInit)

/-- `_add_csr_scale`: `c := a + scale * b` for same-shape CSR operands,
with the same tolerance handling as `_add_csr`. -/
def _add_csr_scale (a b : CSR) (scale : Cplx) (st : CoreSettings) (tolInit : ℚ) : CSR :=
  mergeCSR a b (fun v => scale * v) (readTol st tolInit)

/-- Rendering of a shape tuple, as Python prints it in the error message. -/
def shapeStr (s : Nat × Nat) : String :=
  "(" ++ toString s.1 ++ ", " ++ toString s.2 ++ ")"

/-- The shape-mismatch error message, carrying both operand shapes. -/
def shapeErrMsg (l r : Nat × Nat) : String :=
  "incompatible matrix shapes " ++ shapeStr l ++ " and " ++ shapeStr r

/-- `_check_shape`: raise `ValueError` (modelled as `Except.error`) unless
both dimensions agree exactly. -/
def _check_shape (l r : Nat × Nat) : Except String Unit :=
  if l.1 ≠ r.1 ∨ l.2 ≠ r.2 then .error (shapeErrMsg l r) else .ok ()

/-- `add_csr(left, right, scale)`: validate shapes, take the zero-operand
fast paths, otherwise run the merge kernel (unscaled variant when
`scale == 1`).  The worst-case capacity `nnz(left) + nnz(right)` of the
source is allocation slack with no observable content, so the embedding
builds exactly the stored entries. -/
def add_csr (left right : CSR) (scale : Cplx) (st : CoreSettings) (tolInit : ℚ) :
    Except String CSR :=
  match _check_shape left.shape right.shape with
  | .error e => .error e
  | .ok _ =>
    let left_nnz := csr_nnz left
    let right_nnz := csr_nnz right
    if right_nnz = 0 ∨ scale = 0 then .ok left.copy
    else if left_nnz = 0 then
      .ok (if scale = 1 then right.copy
        else { right.copy with
          data := (right.copy.data.take right_nnz).map (fun v => scale * v) ++
            right.copy.data.drop right_nnz })
    else if scale = 1 then .ok (_add_csr left right st tolInit)
    else .ok (_add_csr_scale left right scale st tolInit)

/-- `sub_csr(left, right) := add_csr(left, right, -1)`. -/
def sub_csr (left right : CSR) (st : CoreSettings) (tolInit : ℚ) : Except String CSR :=
  add_csr left right (-1) st tolInit

/-- A dense matrix: `shape = (rows, cols)`, a flat buffer of `rows * cols`
values, and the layout flag (`fortran = true` for column-major). -/
structure Dense where
  shape : Nat × Nat
  data : List Cplx
  fortran : Bool
deriving DecidableEq

/-- Buffer-length invariant of a dense matrix. -/
def dense_wf (m : Dense) : Prop := m.data.length = m.shape.1 * m.shape.2

instance (m : Dense) : Decidable (dense_wf m) := by
  unfold dense_wf; infer_instance

/-- The flat-buffer position of element `(i, j)` under the given layout:
`j * rows + i` for column-major, `i * cols + j` for row-major. -/
def densePos (fortran : Bool) (rows cols i j : Nat) : Nat :=
  if fortran then j * rows + i else i * cols + j

/-- The value of a dense matrix at `(i, j)`, read through its layout flag. -/
def Dense.get (m : Dense) (i j : Nat) : Cplx :=
  m.data.getD (densePos m.fortran m.shape.1 m.shape.2 i j) 0

/-- Modelled from the spec: `Dense.copy()` returns an independent deep
copy; in value semantics a deep copy is the matrix itself. -/
def Dense.copy (m : Dense) : Dense := m

/-- The value of a C `int` variable assigned from a wider non-negative
integer: reduction modulo `2^32`, reinterpreted as a two's-complement
signed 32-bit value. -/
def c_int_of_nat (n : Nat) : Int :=
  let m : Nat := n % 2 ^ 32
  if 2 ^ 31 ≤ m then (m : Int) - 2 ^ 32 else (m : Int)

/-- Modelled from the spec: the strided scaled vector update performed by
BLAS `zaxpy` with unit output stride (every call in the source passes
`incy = 1`): step `k` (for `k < m`, taken in increasing order like the BLAS
loop) performs `y[offY + k] += a * x[offX + k * incX]`. -/
def zaxpyGo (a : Cplx) (x : List Cplx) (offX incX : Nat) (y : List Cplx) (offY : Nat) :
    Nat → List Cplx
  | 0 => y
  | m + 1 =>
    let prev := zaxpyGo a x offX incX y offY m
    prev.set (offY + m) (prev.getD (offY + m) 0 + a * x.getD (offX + m * incX) 0)

/-- Modelled from the spec: BLAS `zaxpy` with a C `int` element count; a
non-positive count performs no updates. -/
def zaxpy (n : Int) (a : Cplx) (x : List Cplx) (offX incX : Nat) (y : List Cplx)
    (offY : Nat) : List Cplx :=
  zaxpyGo a x offX incX y offY n.toNat

/-- `_add_dense_eq_order`: both operands share one layout, so the whole
buffer is one contiguous vector; `out := left.copy()` then a single
`zaxpy` over `size = rows * cols` elements, where `size` is a C `int`. -/
def _add_dense_eq_order (left right : Dense) (scale : Cplx) : Dense :=
  let out := left.copy
  let size : Int := c_int_of_nat (left.shape.1 * left.shape.2)
  { out with data := zaxpy size scale right.data 0 1 out.data 0 }

/-- The mismatched-layout loop of `add_dense`/`iadd_dense`: for each
`idx < dim2` perform a `zaxpy` of `dim1` elements reading `right` with
stride `dim2` from offset `idx` and writing contiguously from offset
`idx * dim1`.  `dim1`/`dim2` are C `int` values; a non-positive `dim2`
yields no iterations (the strides and offsets below use their
non-negative reinterpretation, which is exact whenever the loop body is
reachable with in-range dimensions). -/
def stridedLoop (scale : Cplx) (x : List Cplx) (dim1 dim2 : Int) (y : List Cplx) :
    Nat → List Cplx
  | 0 => y
  | idx + 1 =>
    let prev := stridedLoop scale x dim1 dim2 y idx
    zaxpy dim1 scale x idx dim2.toNat prev (idx * dim1.toNat)

/-- `add_dense(left, right, scale)`: validate shapes; if the layout flags
agree take the contiguous path, otherwise copy `left` and run the strided
loop with `(dim1, dim2) = (nrows, ncols)` when `left` is column-major and
`(ncols, nrows)` otherwise. -/
def add_dense (left right : Dense) (scale : Cplx) : Except String Dense :=
  match _check_shape left.shape right.shape with
  | .error e => .error e
  | .ok _ =>
    if !(left.fortran.xor right.fortran) then
      .ok (_add_dense_eq_order left right scale)
    else
      let out := left.copy
      let dim1 : Int := c_int_of_nat (if left.fortran then left.shape.1 else left.shape.2)
      let dim2 : Int := c_int_of_nat (if left.fortran then left.shape.2 else left.shape.1)
      .ok { out with data := stridedLoop scale right.data dim1 dim2 out.data dim2.toNat }

/-- `iadd_dense(left, right, scale)`: same computation as `add_dense`, but
the updates land in `left`'s own buffer and `left` itself is returned. -/
def iadd_dense (left right : Dense) (scale : Cplx) : Except String Dense :=
  match _check_shape left.shape right.shape with
  | .error e => .error e
  | .ok _ =>
    let size : Int := c_int_of_nat (left.shape.1 * left.shape.2)
    let dim1 : Int := c_int_of_nat (if left.fortran then left.shape.1 else left.shape.2)
    let dim2 : Int := c_int_of_nat (if left.fortran then left.shape.2 else left.shape.1)
    if !(left.fortran.xor right.fortran) then
      .ok { left with data := zaxpy size scale right.data 0 1 left.data 0 }
    else
      .ok { left with data := stridedLoop scale right.data dim1 dim2 left.data dim2.toNat }

/-- `sub_dense(left, right) := add_dense(left, right, -1)`. -/
def sub_dense (left right : Dense) : Except String Dense :=
  add_dense left right (-1)

deriving instance DecidableEq for Except

/-- Whether a fallible entry point succeeded. -/
def isOkE {α : Type} (e : Except String α) : Bool :=
  match e with
  | .ok _ => true
  | .error _ => false

/-! Concrete instances used by the claim evaluations and witnesses. -/

/-- A 1×1 CSR matrix storing the single entry `(0,0) = 1`. -/
def oneEntry : CSR := ⟨(1, 1), [0, 1], [0], [⟨1, 0⟩]⟩

/-- A 1×1 CSR matrix with no stored entries. -/
def zeroCSR1 : CSR := ⟨(1, 1), [0, 0], [], []⟩

/-- A 1×1 CSR matrix storing one explicit zero entry at `(0,0)`. -/
def zeroEntryCSR : CSR := ⟨(1, 1), [0, 1], [0], [⟨0, 0⟩]⟩

/-- The spec's CSR scenario operand `A`: 2×2 with `{(0,0): 1, (1,1): 2}`. -/
def scenA : CSR := ⟨(2, 2), [0, 1, 2], [0, 1], [⟨1, 0⟩, ⟨2, 0⟩]⟩

/-- The spec's CSR scenario operand `B`: 2×2 with `{(0,0): -1, (0,1): 3}`. -/
def scenB : CSR := ⟨(2, 2), [0, 2, 2], [0, 1], [⟨-1, 0⟩, ⟨3, 0⟩]⟩

/-- A 2×3 CSR zero matrix. -/
def csr23 : CSR := ⟨(2, 3), [0, 0, 0], [], []⟩

/-- A 3×2 CSR zero matrix. -/
def csr32 : CSR := ⟨(3, 2), [0, 0, 0, 0], [], []⟩

/-- A 2×3 dense zero matrix, row-major. -/
def dense23 : Dense := ⟨(2, 3), List.replicate 6 0, false⟩

/-- A 3×2 dense zero matrix, row-major. -/
def dense32 : Dense := ⟨(3, 2), List.replicate 6 0, false⟩

/-- The spec's dense scenario operand: row-major `[[1, 2], [3, 4]]`. -/
def scenL : Dense := ⟨(2, 2), [⟨1, 0⟩, ⟨2, 0⟩, ⟨3, 0⟩, ⟨4, 0⟩], false⟩

/-- The spec's dense scenario operand: column-major storage of
`[[5, 6], [7, 8]]` (buffer `[5, 7, 6, 8]`). -/
def scenR : Dense := ⟨(2, 2), [⟨5, 0⟩, ⟨7, 0⟩, ⟨6, 0⟩, ⟨8, 0⟩], true⟩

/-- A row-major dense matrix of shape `(32769, 65536)`, all entries 1: its
element count `2^31 + 65536` overflows a C signed 32-bit `int`. -/
def bigOnes : Dense := ⟨(32769, 65536), List.replicate 2147549184 ⟨1, 0⟩, false⟩

/-! Basic lemmas. -/

theorem cplx_add_comm (x y : Cplx) : x + y = y + x := by
  cases x with
  | mk a b =>
    cases y with
    | mk c d =>
      show Cplx.mk (a + c) (b + d) = Cplx.mk (c + a) (d + b)
      rw [add_comm a c, add_comm b d]

theorem cplx_one_mul (v : Cplx) : (1 : Cplx) * v = v := by
  cases v with
  | mk a b =>
    show Cplx.mk (1 * a - 0 * b) (1 * b + 0 * a) = Cplx.mk a b
    norm_num

theorem check_shape_ok {l r : Nat × Nat} (h : l = r) : _check_shape l r = .ok () := by
  subst h
  unfold _check_shape
  rw [if_neg]
  simp

theorem check_shape_err {l r : Nat × Nat} (h : l.1 ≠ r.1 ∨ l.2 ≠ r.2) :
    _check_shape l r = .error (shapeErrMsg l r) := by
  unfold _check_shape
  rw [if_pos h]

/-- Claim C5: for operands whose shapes differ in either dimension, every
entry point (`add_csr`, `add_dense`, `iadd_dense`, `sub_csr`, `sub_dense`)
fails with the shape-mismatch error, whose message carries both operands'
shapes (`shapeErrMsg` is, by definition, "incompatible matrix shapes "
followed by both rendered shapes); the error is produced by the validation
before any computation, and no operand value is consumed or changed. -/
theorem shape_mismatch_all_entry_points
    (A B : CSR) (L R : Dense) (scale : Cplx) (st : CoreSettings) (tolInit : ℚ)
    (hc : A.shape.1 ≠ B.shape.1 ∨ A.shape.2 ≠ B.shape.2)
    (hd : L.shape.1 ≠ R.shape.1 ∨ L.shape.2 ≠ R.shape.2) :
    add_csr A B scale st tolInit = .error (shapeErrMsg A.shape B.shape) ∧
    sub_csr A B st tolInit = .error (shapeErrMsg A.shape B.shape) ∧
    add_dense L R scale = .error (shapeErrMsg L.shape R.shape) ∧
    iadd_dense L R scale = .error (shapeErrMsg L.shape R.shape) ∧
    sub_dense L R = .error (shapeErrMsg L.shape R.shape) := by
  refine ⟨?_, ?_, ?_, ?_, ?_⟩ <;>
    simp [add_csr, sub_csr, add_dense, iadd_dense, sub_dense,
      check_shape_err hc, check_shape_err hd]

/-- Witness for C5: the spec's `(2, 3)` versus `(3, 2)` scenario, on both
representations. -/
theorem shape_mismatch_all_entry_points_witness :
    add_csr csr23 csr32 1 ⟨true, 0⟩ 0 = .error (shapeErrMsg (2, 3) (3, 2)) ∧
    sub_csr csr23 csr32 ⟨true, 0⟩ 0 = .error (shapeErrMsg (2, 3) (3, 2)) ∧
    add_dense dense23 dense32 1 = .error (shapeErrMsg (2, 3) (3, 2)) ∧
    iadd_dense dense23 dense32 1 = .error (shapeErrMsg (2, 3) (3, 2)) ∧
    sub_dense dense23 dense32 = .error (shapeErrMsg (2, 3) (3, 2)) :=
  shape_mismatch_all_entry_points csr23 csr32 dense23 dense32 1 ⟨true, 0⟩ 0
    (by decide) (by decide)

/-- Claim C6: when `right` has no stored entries or `scale = 0`, `add_csr`
returns a copy of `left` unchanged (the deep copy is value-equal to `left`
in both values and structure). -/
theorem add_csr_right_zero_or_scale_zero
    (A B : CSR) (scale : Cplx) (st : CoreSettings) (tolInit : ℚ)
    (hs : A.shape = B.shape) (h : csr_nnz B = 0 ∨ scale = 0) :
    add_csr A B scale st tolInit = .ok A := by
  simp only [add_csr, check_shape_ok hs]
  rw [if_pos h]
  rfl

/-- Witness for C6: a nonzero 1×1 left operand against the 1×1 zero matrix
with a nonzero scale. -/
theorem add_csr_right_zero_or_scale_zero_witness :
    add_csr oneEntry zeroCSR1 ⟨3, 1⟩ ⟨true, 1⟩ 0 = .ok oneEntry :=
  add_csr_right_zero_or_scale_zero oneEntry zeroCSR1 ⟨3, 1⟩ ⟨true, 1⟩ 0
    (by decide) (Or.inl (by decide))

/-- Claim C7: `iadd_dense(L, R, scale)` leaves `L`'s buffer holding exactly
the values `add_dense(L, R, scale)` would return, and the returned matrix
is the updated left operand itself (the in-place update is modelled by
returning the mutated `left`, so the two entry points agree as functions,
shape and layout flag included). -/
theorem iadd_dense_eq_add_dense (L R : Dense) (scale : Cplx) :
    iadd_dense L R scale = add_dense L R scale := by
  unfold iadd_dense add_dense _add_dense_eq_order Dense.copy
  cases h : _check_shape L.shape R.shape <;> rfl

/-- Claim C8: `sub_csr(left, right) = add_csr(left, right, -1)` and
`sub_dense(left, right) = add_dense(left, right, -1)`, definitionally. -/
theorem sub_eq_add_neg_one (A B : CSR) (st : CoreSettings) (tolInit : ℚ)
    (L R : Dense) :
    sub_csr A B st tolInit = add_csr A B (-1) st tolInit ∧
    sub_dense L R = add_dense L R (-1) :=
  ⟨rfl, rfl⟩

/-- Claim C9: a successful `add_dense` result carries the layout flag of
the left operand, whatever the right operand's flag: both paths start from
a copy of `left` and update only its buffer. -/
theorem add_dense_result_layout (L R : Dense) (scale : Cplx)
    (hs : L.shape = R.shape) :
    isOkE (add_dense L R scale) = true ∧
    ∀ out, add_dense L R scale = .ok out → out.fortran = L.fortran := by
  constructor
  · simp only [add_dense, check_shape_ok hs]
    by_cases hb : (!(L.fortran.xor R.fortran)) = true
    · rw [if_pos hb]
      rfl
    · rw [if_neg hb]
      rfl
  · intro out hout
    simp only [add_dense, check_shape_ok hs] at hout
    by_cases hb : (!(L.fortran.xor R.fortran)) = true
    · rw [if_pos hb] at hout
      injection hout with h
      rw [← h]
      rfl
    · rw [if_neg hb] at hout
      injection hout with h
      rw [← h]
      rfl

unseal Rat.add Rat.mul Rat.sub in
/-- Witness for C9: the spec's 2×2 mixed-layout scenario; the result keeps
the row-major flag of the left operand. -/
theorem add_dense_result_layout_witness :
    isOkE (add_dense scenL scenR 1) = true ∧
    Dense.fortran ⟨(2, 2), [⟨6, 0⟩, ⟨8, 0⟩, ⟨10, 0⟩, ⟨12, 0⟩], false⟩ = scenL.fortran :=
  ⟨(add_dense_result_layout scenL scenR 1 (by decide)).1,
    (add_dense_result_layout scenL scenR 1 (by decide)).2 _ (by decide)⟩

/-! Lemmas about the C `int` cast and the vector updates. -/

theorem c_int_of_nat_of_lt {n : Nat} (h : n < 2 ^ 31) : c_int_of_nat n = n := by
  unfold c_int_of_nat
  have h32 : n % 2 ^ 32 = n := Nat.mod_eq_of_lt (by omega)
  rw [h32, if_neg (by omega)]

theorem c_int_toNat_of_lt {n : Nat} (h : n < 2 ^ 31) : (c_int_of_nat n).toNat = n := by
  rw [c_int_of_nat_of_lt h]
  exact Int.toNat_natCast n

theorem getD_set_ne {α : Type} (l : List α) (i q : Nat) (v d : α) (h : i ≠ q) :
    (l.set i v).getD q d = l.getD q d := by
  simp [List.getD_eq_getElem?_getD, List.getElem?_set_ne h]

theorem getD_set_self {α : Type} (l : List α) (i : Nat) (v d : α) (h : i < l.length) :
    (l.set i v).getD i d = v := by
  simp [List.getD_eq_getElem?_getD, List.getElem?_set_self h]

theorem zaxpyGo_length (a : Cplx) (x : List Cplx) (offX incX : Nat) (y : List Cplx)
    (offY : Nat) : ∀ m, (zaxpyGo a x offX incX y offY m).length = y.length
  | 0 => rfl
  | m + 1 => by
    simp only [zaxpyGo, List.length_set]
    exact zaxpyGo_length a x offX incX y offY m

theorem zaxpyGo_getD_outside (a : Cplx) (x : List Cplx) (offX incX : Nat) (y : List Cplx)
    (offY q : Nat) (d : Cplx) :
    ∀ m, (q < offY ∨ offY + m ≤ q) →
      (zaxpyGo a x offX incX y offY m).getD q d = y.getD q d
  | 0, _ => rfl
  | m + 1, h => by
    simp only [zaxpyGo]
    rw [getD_set_ne _ _ _ _ _ (by omega)]
    exact zaxpyGo_getD_outside a x offX incX y offY q d m (by omega)

theorem zaxpyGo_getD_mid (a : Cplx) (x : List Cplx) (offX incX : Nat) (y : List Cplx)
    (offY : Nat) :
    ∀ m k, k < m → offY + m ≤ y.length →
      (zaxpyGo a x offX incX y offY m).getD (offY + k) 0 =
        y.getD (offY + k) 0 + a * x.getD (offX + k * incX) 0
  | 0, k, hk, _ => absurd hk (Nat.not_lt_zero k)
  | m + 1, k, hk, hlen => by
    simp only [zaxpyGo]
    by_cases hkm : k = m
    · subst hkm
      rw [getD_set_self _ _ _ _ (by rw [zaxpyGo_length]; omega)]
      rw [zaxpyGo_getD_outside a x offX incX y offY (offY + k) 0 k (Or.inr (Nat.le_refl _))]
    · rw [getD_set_ne _ _ _ _ _ (by omega)]
      exact zaxpyGo_getD_mid a x offX incX y offY m k (by omega) (by omega)

theorem stridedLoop_length (scale : Cplx) (x : List Cplx) (d1 d2 : Int) (y : List Cplx) :
    ∀ N, (stridedLoop scale x d1 d2 y N).length = y.length
  | 0 => rfl
  | N + 1 => by
    simp only [stridedLoop, zaxpy]
    rw [zaxpyGo_length]
    exact stridedLoop_length scale x d1 d2 y N

theorem stridedLoop_getD_of_ge (scale : Cplx) (x : List Cplx) (d1 d2 : Int)
    (y : List Cplx) (q : Nat) (d : Cplx) :
    ∀ N, N * d1.toNat ≤ q →
      (stridedLoop scale x d1 d2 y N).getD q d = y.getD q d
  | 0, _ => rfl
  | N + 1, h => by
    have hsucc : (N + 1) * d1.toNat = N * d1.toNat + d1.toNat := Nat.succ_mul N d1.toNat
    simp only [stridedLoop, zaxpy]
    rw [zaxpyGo_getD_outside _ _ _ _ _ _ _ _ d1.toNat (Or.inr (by omega))]
    exact stridedLoop_getD_of_ge scale x d1 d2 y q d N (by omega)

theorem stridedLoop_getD_mid (scale : Cplx) (x : List Cplx) (d1 d2 : Int) (y : List Cplx) :
    ∀ N idx k, idx < N → k < d1.toNat → N * d1.toNat ≤ y.length →
      (stridedLoop scale x d1 d2 y N).getD (idx * d1.toNat + k) 0 =
        y.getD (idx * d1.toNat + k) 0 + scale * x.getD (idx + k * d2.toNat) 0
  | 0, idx, _, hidx, _, _ => absurd hidx (Nat.not_lt_zero idx)
  | N + 1, idx, k, hidx, hk, hlen => by
    have hsucc : (N + 1) * d1.toNat = N * d1.toNat + d1.toNat := Nat.succ_mul N d1.toNat
    simp only [stridedLoop, zaxpy]
    by_cases hiN : idx = N
    · subst hiN
      rw [zaxpyGo_getD_mid _ _ _ _ _ _ d1.toNat k hk (by rw [stridedLoop_length]; omega)]
      rw [stridedLoop_getD_of_ge _ _ _ _ _ _ _ _ (Nat.le_add_right _ _)]
    · have hlt : idx * d1.toNat + k < N * d1.toNat := by
        have h1 : (idx + 1) * d1.toNat ≤ N * d1.toNat := Nat.mul_le_mul_right _ (by omega)
        have h2 : (idx + 1) * d1.toNat = idx * d1.toNat + d1.toNat := Nat.succ_mul idx _
        omega
      rw [zaxpyGo_getD_outside _ _ _ _ _ _ _ _ d1.toNat (Or.inl hlt)]
      exact stridedLoop_getD_mid scale x d1 d2 y N idx k (by omega) hk (by omega)

theorem densePos_lt {f : Bool} {rows cols i j : Nat} (hi : i < rows) (hj : j < cols) :
    densePos f rows cols i j < rows * cols := by
  unfold densePos
  cases f
  · show i * cols + j < rows * cols
    have h1 : (i + 1) * cols = i * cols + cols := Nat.succ_mul i cols
    have h2 : (i + 1) * cols ≤ rows * cols := Nat.mul_le_mul_right _ (by omega)
    omega
  · show j * rows + i < rows * cols
    have h1 : (j + 1) * rows = j * rows + rows := Nat.succ_mul j rows
    have h2 : (j + 1) * rows ≤ cols * rows := Nat.mul_le_mul_right _ (by omega)
    have h3 : cols * rows = rows * cols := Nat.mul_comm cols rows
    omega

/-- Claim C10 counterexample: at the concrete element count
`32769 * 65536 = 2^31 + 65536` the C `int` value computed by the dense
kernels is `65536 - 2^31` (negative, so the vector update degenerates to a
no-op), which is not the count reduced modulo `2^31` (that would be the
positive `65536`): the wrap is modulo `2^32` reinterpreted as a signed
value, not modulo `2^31`. -/
theorem c_int_wrap_counterexample :
    c_int_of_nat (32769 * 65536) = 65536 - 2 ^ 31 ∧
    c_int_of_nat (32769 * 65536) ≠ (32769 * 65536 : Int) % 2 ^ 31 := by
  constructor <;> decide

/-- Claim C10 (amended): the dense kernels take the element count
`rows * cols` (and the per-segment extents) as C signed 32-bit `int` values
via `c_int_of_nat`, so the element-wise results are well defined only when
`rows * cols < 2^31`, where the count is exact; beyond that the count wraps
modulo `2^32` as a two's-complement signed value,
`((n + 2^31) mod 2^32) - 2^31`.  The last conjunct exhibits the count
inside the contiguous kernel. -/
theorem c_int_of_nat_char (n : Nat) :
    c_int_of_nat n = ((n : Int) + 2 ^ 31) % 2 ^ 32 - 2 ^ 31 ∧
    (n < 2 ^ 31 → c_int_of_nat n = n) ∧
    (∀ left right : Dense, ∀ scale : Cplx,
      _add_dense_eq_order left right scale =
        { left with
            data := zaxpyGo scale right.data 0 1 left.data 0
              (c_int_of_nat (left.shape.1 * left.shape.2)).toNat }) := by
  refine ⟨?_, fun h => c_int_of_nat_of_lt h, fun _ _ _ => rfl⟩
  show (if 2 ^ 31 ≤ n % 2 ^ 32 then ((n % 2 ^ 32 : Nat) : Int) - 2 ^ 32
      else ((n % 2 ^ 32 : Nat) : Int)) = ((n : Int) + 2 ^ 31) % 2 ^ 32 - 2 ^ 31
  split <;> omega

/-- Witness for C10 (amended): the in-range count 7 is exact and satisfies
the wrap formula. -/
theorem c_int_of_nat_char_witness :
    c_int_of_nat 7 = ((7 : Int) + 2 ^ 31) % 2 ^ 32 - 2 ^ 31 ∧ c_int_of_nat 7 = 7 :=
  ⟨(c_int_of_nat_char 7).1, (c_int_of_nat_char 7).2.1 (by decide)⟩

/-! Element-wise characterization of the dense kernels. -/

theorem eq_order_get (L R : Dense) (scale : Cplx) (hL : dense_wf L)
    (hs : L.shape = R.shape) (hf : L.fortran = R.fortran)
    (hsize : L.shape.1 * L.shape.2 < 2 ^ 31)
    (i j : Nat) (hi : i < L.shape.1) (hj : j < L.shape.2) :
    (_add_dense_eq_order L R scale).get i j = L.get i j + scale * R.get i j := by
  have hp : densePos L.fortran L.shape.1 L.shape.2 i j < L.shape.1 * L.shape.2 :=
    densePos_lt hi hj
  have hmid := zaxpyGo_getD_mid scale R.data 0 1 L.data 0 (L.shape.1 * L.shape.2)
    (densePos L.fortran L.shape.1 L.shape.2 i j) hp
    (by unfold dense_wf at hL; omega)
  simp only [Nat.zero_add, Nat.mul_one] at hmid
  show (zaxpyGo scale R.data 0 1 L.data 0
      (c_int_of_nat (L.shape.1 * L.shape.2)).toNat).getD
      (densePos L.fortran L.shape.1 L.shape.2 i j) 0 = _
  rw [c_int_toNat_of_lt hsize, hmid]
  congr 1
  unfold Dense.get
  rw [← hs, ← hf]

theorem strided_get_ff (L R : Dense) (scale : Cplx) (hL : dense_wf L)
    (hs : L.shape = R.shape) (hLf : L.fortran = false) (hRf : R.fortran = true)
    (hsize : L.shape.1 * L.shape.2 < 2 ^ 31)
    (i j : Nat) (hi : i < L.shape.1) (hj : j < L.shape.2) :
    (stridedLoop scale R.data (c_int_of_nat L.shape.2) (c_int_of_nat L.shape.1) L.data
        (c_int_of_nat L.shape.1).toNat).getD (i * L.shape.2 + j) 0
      = L.get i j + scale * R.get i j := by
  have hrows : L.shape.1 < 2 ^ 31 :=
    lt_of_le_of_lt (Nat.le_mul_of_pos_right _ (by omega)) hsize
  have hcols : L.shape.2 < 2 ^ 31 :=
    lt_of_le_of_lt (Nat.le_mul_of_pos_left _ (by omega)) hsize
  have hd1 : (c_int_of_nat L.shape.2).toNat = L.shape.2 := c_int_toNat_of_lt hcols
  have hd2 : (c_int_of_nat L.shape.1).toNat = L.shape.1 := c_int_toNat_of_lt hrows
  have hmid := stridedLoop_getD_mid scale R.data (c_int_of_nat L.shape.2)
    (c_int_of_nat L.shape.1) L.data (c_int_of_nat L.shape.1).toNat i j
    (by rw [hd2]; exact hi) (by rw [hd1]; exact hj)
    (by rw [hd1, hd2]; unfold dense_wf at hL; omega)
  rw [hd1, hd2] at hmid
  rw [hd2, hmid]
  congr 1
  · unfold Dense.get densePos
    rw [hLf]
    rfl
  · unfold Dense.get densePos
    rw [← hs, hRf]
    show scale * R.data.getD (i + j * L.shape.1) 0 =
      scale * R.data.getD (j * L.shape.1 + i) 0
    rw [Nat.add_comm]

theorem strided_get_tt (L R : Dense) (scale : Cplx) (hL : dense_wf L)
    (hs : L.shape = R.shape) (hLf : L.fortran = true) (hRf : R.fortran = false)
    (hsize : L.shape.1 * L.shape.2 < 2 ^ 31)
    (i j : Nat) (hi : i < L.shape.1) (hj : j < L.shape.2) :
    (stridedLoop scale R.data (c_int_of_nat L.shape.1) (c_int_of_nat L.shape.2) L.data
        (c_int_of_nat L.shape.2).toNat).getD (j * L.shape.1 + i) 0
      = L.get i j + scale * R.get i j := by
  have hrows : L.shape.1 < 2 ^ 31 :=
    lt_of_le_of_lt (Nat.le_mul_of_pos_right _ (by omega)) hsize
  have hcols : L.shape.2 < 2 ^ 31 :=
    lt_of_le_of_lt (Nat.le_mul_of_pos_left _ (by omega)) hsize
  have hd1 : (c_int_of_nat L.shape.1).toNat = L.shape.1 := c_int_toNat_of_lt hrows
  have hd2 : (c_int_of_nat L.shape.2).toNat = L.shape.2 := c_int_toNat_of_lt hcols
  have hmid := stridedLoop_getD_mid scale R.data (c_int_of_nat L.shape.1)
    (c_int_of_nat L.shape.2) L.data (c_int_of_nat L.shape.2).toNat j i
    (by rw [hd2]; exact hj) (by rw [hd1]; exact hi)
    (by rw [hd1, hd2]; unfold dense_wf at hL
        have := Nat.mul_comm L.shape.2 L.shape.1
        omega)
  rw [hd1, hd2] at hmid
  rw [hd2, hmid]
  congr 1
  · unfold Dense.get densePos
    rw [hLf]
    rfl
  · unfold Dense.get densePos
    rw [← hs, hRf]
    show scale * R.data.getD (j + i * L.shape.2) 0 =
      scale * R.data.getD (i * L.shape.2 + j) 0
    rw [Nat.add_comm]

theorem add_dense_get_formula (L R : Dense) (scale : Cplx)
    (hL : dense_wf L) (hR : dense_wf R) (hs : L.shape = R.shape)
    (hsize : L.shape.1 * L.shape.2 < 2 ^ 31) :
    ∀ out, add_dense L R scale = .ok out →
      ∀ i, i < L.shape.1 → ∀ j, j < L.shape.2 →
        out.get i j = L.get i j + scale * R.get i j := by
  intro out hout i hi j hj
  simp only [add_dense, check_shape_ok hs] at hout
  by_cases hb : (!(L.fortran.xor R.fortran)) = true
  · rw [if_pos hb] at hout
    injection hout with h
    subst h
    have hf : L.fortran = R.fortran := by
      revert hb
      cases L.fortran <;> cases R.fortran <;> decide
    exact eq_order_get L R scale hL hs hf hsize i j hi hj
  · rw [if_neg hb] at hout
    injection hout with h
    subst h
    have hf : ¬(L.fortran = R.fortran) := by
      revert hb
      cases L.fortran <;> cases R.fortran <;> decide
    show (stridedLoop scale R.data
        (c_int_of_nat (if L.fortran = true then L.shape.1 else L.shape.2))
        (c_int_of_nat (if L.fortran = true then L.shape.2 else L.shape.1)) L.data
        (c_int_of_nat (if L.fortran = true then L.shape.2 else L.shape.1)).toNat).getD
        (densePos L.fortran L.shape.1 L.shape.2 i j) 0 = _
    cases hLf : L.fortran
    · have hRf : R.fortran = true := by
        cases hR2 : R.fortran
        · rw [hLf, hR2] at hf
          exact absurd rfl hf
        · rfl
      rw [if_neg (by simp), if_neg (by simp)]
      have hpos : densePos false L.shape.1 L.shape.2 i j = i * L.shape.2 + j := rfl
      rw [hpos]
      exact strided_get_ff L R scale hL hs hLf hRf hsize i j hi hj
    · have hRf : R.fortran = false := by
        cases hR2 : R.fortran
        · rfl
        · rw [hLf, hR2] at hf
          exact absurd rfl hf
      rw [if_pos rfl, if_pos rfl]
      have hpos : densePos true L.shape.1 L.shape.2 i j = j * L.shape.1 + i := rfl
      rw [hpos]
      exact strided_get_tt L R scale hL hs hLf hRf hsize i j hi hj

unseal Rat.add Rat.mul Rat.sub in
/-- Claim C3 counterexample: `add_dense` does not return the elementwise
sum for every pair of same-shape dense matrices.  At the concrete all-ones
row-major operands of shape `(32769, 65536)` the element count
`2^31 + 65536` wraps to a negative C `int`, the BLAS call is a no-op, and
the result equals the left operand: its `(0, 0)` entry is 1, not the
elementwise sum 2. -/
theorem add_dense_overflow_counterexample :
    add_dense bigOnes bigOnes 1 = Except.ok bigOnes ∧
    Dense.get bigOnes 0 0 + (1 : Cplx) * Dense.get bigOnes 0 0 = ⟨2, 0⟩ ∧
    Dense.get bigOnes 0 0 ≠ ⟨2, 0⟩ := by
  refine ⟨rfl, by decide, by decide⟩

/-- Claim C3 (amended): for same-shape dense matrices whose element count
`rows * cols` fits in a C signed 32-bit `int` (`rows * cols < 2^31`),
`add_dense(L, R, scale)` succeeds and returns the elementwise sum
`L + scale * R` — the same value formula whether the layout flags agree
(contiguous path) or differ (strided path) — and with `scale = 1` the
resulting values are commutative in `L` and `R`. -/
theorem add_dense_elementwise (L R : Dense) (scale : Cplx)
    (hL : dense_wf L) (hR : dense_wf R) (hs : L.shape = R.shape)
    (hsize : L.shape.1 * L.shape.2 < 2 ^ 31) :
    isOkE (add_dense L R scale) = true ∧
    (∀ out, add_dense L R scale = .ok out →
      ∀ i, i < L.shape.1 → ∀ j, j < L.shape.2 →
        out.get i j = L.get i j + scale * R.get i j) ∧
    (∀ o1 o2, add_dense L R 1 = .ok o1 → add_dense R L 1 = .ok o2 →
      ∀ i, i < L.shape.1 → ∀ j, j < L.shape.2 → o1.get i j = o2.get i j) := by
  refine ⟨?_, add_dense_get_formula L R scale hL hR hs hsize, ?_⟩
  · simp only [add_dense, check_shape_ok hs]
    by_cases hb : (!(L.fortran.xor R.fortran)) = true
    · rw [if_pos hb]
      rfl
    · rw [if_neg hb]
      rfl
  · intro o1 o2 h1 h2 i hi j hj
    have hsize' : R.shape.1 * R.shape.2 < 2 ^ 31 := by rw [← hs]; exact hsize
    rw [add_dense_get_formula L R 1 hL hR hs hsize o1 h1 i hi j hj]
    rw [add_dense_get_formula R L 1 hR hL hs.symm hsize' o2 h2 i (by rw [← hs]; exact hi)
      j (by rw [← hs]; exact hj)]
    rw [cplx_one_mul, cplx_one_mul, cplx_add_comm]

unseal Rat.add Rat.mul Rat.sub in
/-- Witness for C3 (amended): the spec's 2×2 mixed-layout scenario,
row-major `[[1,2],[3,4]]` plus column-major `[[5,6],[7,8]]`, gives
`[[6,8],[10,12]]`; entry `(0,1)` matches the elementwise formula. -/
theorem add_dense_elementwise_witness :
    add_dense scenL scenR 1 =
      Except.ok ⟨(2, 2), [⟨6, 0⟩, ⟨8, 0⟩, ⟨10, 0⟩, ⟨12, 0⟩], false⟩ ∧
    Dense.get ⟨(2, 2), [⟨6, 0⟩, ⟨8, 0⟩, ⟨10, 0⟩, ⟨12, 0⟩], false⟩ 0 1 =
      Dense.get scenL 0 1 + 1 * Dense.get scenR 0 1 := by
  have h : add_dense scenL scenR 1 =
      Except.ok ⟨(2, 2), [⟨6, 0⟩, ⟨8, 0⟩, ⟨10, 0⟩, ⟨12, 0⟩], false⟩ := by decide
  exact ⟨h, (add_dense_elementwise scenL scenR 1 (by decide) (by decide) (by decide)
    (by decide)).2.1 _ h 0 (by decide) 1 (by decide)⟩

/-! Structural validity of the CSR merge output. -/

theorem getD_map_range {α : Type} (f : Nat → α) (d : α) {n r : Nat} (h : r < n) :
    ((List.range n).map f).getD r d = f r := by
  rw [List.getD_eq_getElem _ _ (by simpa using h)]
  simp

theorem getD_map_of_lt {α β : Type} (f : α → β) (l : List α) (p : Nat) (d : β) (d' : α)
    (h : p < l.length) : (l.map f).getD p d = f (l.getD p d') := by
  rw [List.getD_eq_getElem _ _ (by simpa using h), List.getD_eq_getElem _ _ h]
  simp

theorem flatten_take_succ {α : Type} (L : List (List α)) (r : Nat) (h : r < L.length) :
    ((L.take (r + 1)).flatten).length =
      ((L.take r).flatten).length + (L.getD r []).length := by
  rw [List.take_succ, List.flatten_append, List.length_append,
    List.getElem?_eq_getElem h]
  rw [List.getD_eq_getElem _ _ h]
  simp

theorem flatten_getD {α : Type} (d : α) :
    ∀ (L : List (List α)) (r k : Nat), r < L.length → k < (L.getD r []).length →
      (L.flatten).getD (((L.take r).flatten).length + k) d = (L.getD r []).getD k d
  | [], r, _, hr, _ => absurd hr (by simp)
  | x :: t, 0, k, _, hk => by
    simp only [List.take_zero, List.flatten_nil, List.length_nil, Nat.zero_add]
    rw [List.flatten_cons]
    exact List.getD_append _ _ _ _ (by simpa using hk)
  | x :: t, r + 1, k, hr, hk => by
    have hr' : r < t.length := by simpa using hr
    have hk' : k < (t.getD r []).length := by simpa using hk
    rw [List.take_succ_cons, List.flatten_cons, List.flatten_cons, List.length_append,
      Nat.add_assoc, List.getD_append_right _ _ _ _ (Nat.le_add_right _ _),
      Nat.add_sub_cancel_left]
    exact flatten_getD d t r k hr' hk'

theorem flatten_length_split {α : Type} (L : List (List α)) (r : Nat) :
    L.flatten.length =
      ((L.take r).flatten).length + ((L.drop r).flatten).length := by
  conv_lhs => rw [← List.take_append_drop r L]
  rw [List.flatten_append, List.length_append]

theorem acc_gather_fst (acc : Accumulator) (tol : ℚ) :
    (acc_gather acc tol).map Prod.fst =
      (List.range acc.ncols).filter
        (fun c => acc.touched.contains c && !(absLeB (acc.values.getD c 0) tol)) := by
  unfold acc_gather
  rw [List.map_map]
  exact List.map_id _

theorem acc_gather_cols_pairwise (acc : Accumulator) (tol : ℚ) :
    ((acc_gather acc tol).map Prod.fst).Pairwise (· < ·) := by
  rw [acc_gather_fst]
  exact List.Pairwise.sublist (List.filter_sublist _) (List.pairwise_lt_range _)

theorem acc_gather_cols_lt (acc : Accumulator) (tol : ℚ) :
    ∀ c ∈ (acc_gather acc tol).map Prod.fst, c < acc.ncols := by
  rw [acc_gather_fst]
  intro c hc
  exact List.mem_range.mp (List.mem_of_mem_filter hc)

theorem mergeLoop_ncols (ncols : Nat) (a b : CSR) (f : Cplx → Cplx) :
    ∀ fuel pa pam pb pbm acc,
      (mergeLoop ncols a b f fuel pa pam pb pbm acc).ncols = acc.ncols
  | 0, _, _, _, _, _ => rfl
  | fuel + 1, pa, pam, pb, pbm, acc => by
    simp only [mergeLoop]
    repeat' split
    all_goals first
    | rfl
    | exact mergeLoop_ncols ncols a b f fuel _ _ _ _ _

theorem rowResult_fst_pairwise (a b : CSR) (f : Cplx → Cplx) (tol : ℚ) (row : Nat) :
    ((rowResult a b f tol row).map Prod.fst).Pairwise (· < ·) :=
  acc_gather_cols_pairwise _ _

theorem rowResult_fst_lt (a b : CSR) (f : Cplx → Cplx) (tol : ℚ) (row : Nat) :
    ∀ c ∈ (rowResult a b f tol row).map Prod.fst, c < a.shape.2 := by
  intro c hc
  have h := acc_gather_cols_lt _ tol c hc
  rw [mergeLoop_ncols] at h
  exact h

theorem mergeCSR_row_index_getD (a b : CSR) (f : Cplx → Cplx) (tol : ℚ) {r : Nat}
    (h : r < a.shape.1 + 1) :
    (mergeCSR a b f tol).row_index.getD r 0 =
      ((((List.range a.shape.1).map (rowResult a b f tol)).take r).flatten).length := by
  show ((List.range (a.shape.1 + 1)).map
    (fun r => ((((List.range a.shape.1).map (rowResult a b f tol)).take r).flatten).length)).getD
      r 0 = _
  rw [getD_map_range _ _ h]

theorem mergeCSR_rowCols (a b : CSR) (f : Cplx → Cplx) (tol : ℚ) {r : Nat}
    (hr : r < a.shape.1) :
    rowCols (mergeCSR a b f tol) r = (rowResult a b f tol r).map Prod.fst := by
  have hL : ((List.range a.shape.1).map (rowResult a b f tol)).length = a.shape.1 := by
    simp
  have hrL : r < ((List.range a.shape.1).map (rowResult a b f tol)).length := by
    rw [hL]; exact hr
  have hgetD : ((List.range a.shape.1).map (rowResult a b f tol)).getD r [] =
      rowResult a b f tol r := getD_map_range _ _ hr
  have hsucc := flatten_take_succ ((List.range a.shape.1).map (rowResult a b f tol)) r hrL
  unfold rowCols
  rw [mergeCSR_row_index_getD a b f tol (by omega),
    mergeCSR_row_index_getD a b f tol (by omega), hsucc, hgetD, Nat.add_sub_cancel_left]
  apply List.ext_getElem
  · simp
  · intro idx h1 h2
    have hidx : idx < (rowResult a b f tol r).length := by simpa using h2
    have hidx' : idx <
        (((List.range a.shape.1).map (rowResult a b f tol)).getD r []).length := by
      rw [hgetD]; exact hidx
    simp only [List.getElem_map, List.getElem_range', Nat.one_mul]
    have hflat := flatten_getD ((0, 0) : Nat × Cplx)
      ((List.range a.shape.1).map (rowResult a b f tol)) r idx hrL hidx'
    have hq : ((((List.range a.shape.1).map (rowResult a b f tol)).take r).flatten).length
        + idx <
        (((List.range a.shape.1).map (rowResult a b f tol)).flatten).length := by
      conv_rhs => rw [flatten_length_split _ (r + 1)]
      rw [hsucc, hgetD]
      omega
    show (List.map Prod.fst
        (((List.range a.shape.1).map (rowResult a b f tol)).flatten)).getD
        (((((List.range a.shape.1).map (rowResult a b f tol)).take r).flatten).length + idx)
        0 = _
    rw [getD_map_of_lt Prod.fst _ _ 0 ((0, 0) : Nat × Cplx) hq, hflat, hgetD]
    rw [List.getD_eq_getElem _ _ hidx]

/-- The merge-kernel output is always structurally valid, whatever the
operands, the value transform, and the tolerance. -/
theorem mergeCSR_wf (a b : CSR) (f : Cplx → Cplx) (tol : ℚ) :
    csr_wf (mergeCSR a b f tol) := by
  have hL : ((List.range a.shape.1).map (rowResult a b f tol)).length = a.shape.1 := by
    simp
  refine ⟨?_, ?_, ?_, ?_, ?_, ?_⟩
  · show ((List.range (a.shape.1 + 1)).map _).length = (mergeCSR a b f tol).shape.1 + 1
    simp [mergeCSR]
  · rw [mergeCSR_row_index_getD a b f tol (by omega)]
    simp
  · intro r hr
    have hr' : r < a.shape.1 := hr
    rw [mergeCSR_row_index_getD a b f tol (by omega),
      mergeCSR_row_index_getD a b f tol (by omega),
      flatten_take_succ _ _ (by rw [hL]; exact hr')]
    omega
  · show (mergeCSR a b f tol).row_index.getD a.shape.1 0 = _
    rw [mergeCSR_row_index_getD a b f tol (by omega)]
    show _ = ((((List.range a.shape.1).map (rowResult a b f tol)).flatten).map Prod.snd).length
    rw [List.take_of_length_le (le_of_eq hL), List.length_map]
  · show ((((List.range a.shape.1).map (rowResult a b f tol)).flatten).map Prod.fst).length
      = ((((List.range a.shape.1).map (rowResult a b f tol)).flatten).map Prod.snd).length
    rw [List.length_map, List.length_map]
  · intro r hr
    have hr' : r < a.shape.1 := hr
    rw [mergeCSR_rowCols a b f tol hr']
    exact ⟨rowResult_fst_pairwise a b f tol r, rowResult_fst_lt a b f tol r⟩

/-- Claim C2: for well-formed same-shape CSR operands, `add_csr(A, B)`
(scale 1) succeeds and returns a structurally valid CSR: `row_index[0] = 0`,
`row_index` monotonically non-decreasing with `row_index[rows]` equal to the
stored entry count, and each row's `col_index` segment strictly increasing
and within `[0, cols)` — whatever the tolerance setting and whatever stale
value the uninitialized `tol` variable holds. -/
theorem add_csr_structurally_valid (A B : CSR) (st : CoreSettings) (tolInit : ℚ)
    (hA : csr_wf A) (hB : csr_wf B) (hs : A.shape = B.shape) :
    isOkE (add_csr A B 1 st tolInit) = true ∧
    ∀ out, add_csr A B 1 st tolInit = .ok out → csr_wf out := by
  simp only [add_csr, check_shape_ok hs]
  by_cases h1 : csr_nnz B = 0 ∨ (1 : Cplx) = 0
  · rw [if_pos h1]
    exact ⟨rfl, fun out hout => by
      injection hout with h
      rw [← h]
      exact hA⟩
  · rw [if_neg h1]
    by_cases h2 : csr_nnz A = 0
    · rw [if_pos h2, if_pos trivial]
      exact ⟨rfl, fun out hout => by
        injection hout with h
        rw [← h]
        exact hB⟩
    · rw [if_neg h2, if_pos trivial]
      exact ⟨rfl, fun out hout => by
        injection hout with h
        rw [← h]
        exact mergeCSR_wf A B _ _⟩

unseal Rat.add Rat.mul Rat.sub in
/-- Witness for C2: the spec's 2×2 scenario `A = {(0,0): 1, (1,1): 2}`,
`B = {(0,0): -1, (0,1): 3}` with tidy-up on at threshold 0: the `(0,0)`
entries cancel and are dropped, and the result `{(0,1): 3, (1,1): 2}` is
structurally valid. -/
theorem add_csr_structurally_valid_witness :
    csr_wf scenA ∧ csr_wf scenB ∧
    csr_wf (⟨(2, 2), [0, 1, 2], [1, 1], [⟨3, 0⟩, ⟨2, 0⟩]⟩ : CSR) :=
  ⟨by decide, by decide,
    (add_csr_structurally_valid scenA scenB ⟨true, 0⟩ 0 (by decide) (by decide)
      (by decide)).2 _ (by decide)⟩

unseal Rat.add Rat.mul Rat.sub in
/-- Claim C1 (code-bug evaluation): `cdef double tol` in the merge kernels
has no initializer and is assigned only when `auto_tidyup` is enabled.
With tidy-up disabled and a stale stack value of 100, adding the 1×1
matrices `{(0,0): 1}` yields an empty matrix — the sum 2 is dropped against
the stale tolerance — although the claim requires the tolerance to be zero
and the result to dense-expand to `dense(A) + dense(B)` (entry 2 at
`(0,0)`).  With stale value 0 the same call keeps the entry, so the
uninitialized read is observable. -/
theorem add_csr_stale_tol_eval :
    add_csr oneEntry oneEntry 1 ⟨false, 0⟩ 100 = Except.ok ⟨(1, 1), [0, 0], [], []⟩ ∧
    add_csr oneEntry oneEntry 1 ⟨false, 0⟩ 0 =
      Except.ok ⟨(1, 1), [0, 1], [0], [⟨2, 0⟩]⟩ ∧
    CSR.get oneEntry 0 0 + (1 : Cplx) * CSR.get oneEntry 0 0 = ⟨2, 0⟩ ∧
    CSR.get ⟨(1, 1), [0, 0], [], []⟩ 0 0 = 0 := by
  exact ⟨by decide, by decide, by decide, by decide⟩

unseal Rat.add Rat.mul Rat.sub in
/-- Claim C4 counterexample: with tolerance filtering active (tidy-up on at
threshold 1) and `scale = 2`, adding the 1×1 zero matrix to a matrix that
stores an explicit zero entry returns that entry still stored (`nnz = 1`):
the left-empty fast path multiplies stored values by `scale` but never
applies tolerance filtering, so an entry whose scaled value is exactly zero
is not absent from the stored output. -/
theorem add_csr_left_zero_keeps_cancelled_entry :
    add_csr zeroCSR1 zeroEntryCSR ⟨2, 0⟩ ⟨true, 1⟩ 0 =
      Except.ok ⟨(1, 1), [0, 1], [0], [⟨0, 0⟩]⟩ ∧
    (⟨2, 0⟩ : Cplx) * ⟨0, 0⟩ = 0 ∧
    csr_nnz ⟨(1, 1), [0, 1], [0], [⟨0, 0⟩]⟩ = 1 := by
  exact ⟨by decide, by decide, by decide⟩

/-- Claim C4 (amended): when `left` has no stored entries and the other
fast path does not trigger (`right` nonempty, `scale ≠ 0`), `add_csr`
returns `right`'s structure with every stored value multiplied by `scale`
(no multiplication when `scale = 1`); entries whose scaled value is exactly
zero remain stored, because this fast path applies no tolerance filtering
even when the tidy-up setting is active. -/
theorem add_csr_left_zero_scales_right
    (A B : CSR) (scale : Cplx) (st : CoreSettings) (tolInit : ℚ)
    (hs : A.shape = B.shape) (hA : csr_nnz A = 0) (hB : csr_nnz B ≠ 0)
    (hscale : scale ≠ 0) :
    add_csr A B scale st tolInit =
      .ok (if scale = 1 then B
        else { B with
          data := (B.data.take (csr_nnz B)).map (fun v => scale * v) ++
            B.data.drop (csr_nnz B) }) := by
  simp only [add_csr, check_shape_ok hs]
  rw [if_neg (fun hcon => hcon.elim hB hscale), if_pos hA]
  rfl

unseal Rat.add Rat.mul Rat.sub in
/-- Witness for C4 (amended): scaling the 1×1 matrix `{(0,0): 1}` by 2 from
the empty left operand doubles the stored value. -/
theorem add_csr_left_zero_scales_right_witness :
    add_csr zeroCSR1 oneEntry ⟨2, 0⟩ ⟨true, 1⟩ 0 =
      .ok (if (⟨2, 0⟩ : Cplx) = 1 then oneEntry
        else { oneEntry with
          data := ((oneEntry.data.take (csr_nnz oneEntry)).map
            (fun v => (⟨2, 0⟩ : Cplx) * v)) ++ oneEntry.data.drop (csr_nnz oneEntry) }) :=
  add_csr_left_zero_scales_right zeroCSR1 oneEntry ⟨2, 0⟩ ⟨true, 1⟩ 0 (by decide)
    (by decide) (by decide) (by decide)

end QutipAdd
